import Mathlib

/-!
Verification development for the QTodoTxt2 main controller
(src/qtodotxt/controllers/main_controller.py).  The controller's
collaborators from qtodotxt.lib (tasklib, filters, file) are not part of
the checked sources, so their behaviour is modelled from the
specification; every such definition carries a doc comment starting with
"Modelled from the spec:".  All other definitions are direct shallow
embeddings of MainController's methods.
-/

/-- Modelled from the spec: the in-memory TodoTask of qtodotxt.lib.tasklib.
`id` stands for Python object identity, `text` for the raw line text and
`connections` counts how many times the task's per-task modified signal
has been connected to the session handler.  Dates are abstract day
numbers. -/
structure TodoTask where
  id : Nat
  text : String
  is_complete : Bool
  dueDate : Option Nat
  connections : Nat
deriving DecidableEq

/-- Boolean test that the first character list is a prefix of the second. -/
def isPrefixCh : List Char → List Char → Bool
  | [], _ => true
  | _ :: _, [] => false
  | a :: as, b :: bs => a == b && isPrefixCh as bs

/-- Boolean test that `needle` occurs contiguously inside the second list. -/
def containsSeq (needle : List Char) : List Char → Bool
  | [] => needle.isEmpty
  | b :: bs => isPrefixCh needle (b :: bs) || containsSeq needle bs

/-- Modelled from the spec: the case-insensitive substring test used by the
text filter ("case-insensitive substring match against the task's full raw
text"). -/
def strContainsCI (hay needle : String) : Bool :=
  containsSeq (needle.toList.map Char.toLower) (hay.toList.map Char.toLower)

/-- Modelled from the spec: the closed set of filter variants used by
MainController (qtodotxt.lib.filters).  Equality of filter values models
Python equality of the filter objects. -/
inductive TaskFilter where
  | SimpleTextFilter (searchString : String)
  | FutureFilter
  | IncompleteTasksFilter
  | CompleteTasksFilter
deriving DecidableEq

/-- Modelled from the spec: the predicate of each filter variant.
`FutureFilter` is the exclusion predicate: true when the due date is unset
or not strictly in the future. -/
def TaskFilter.isMatch (f : TaskFilter) (today : Nat) (t : TodoTask) : Bool :=
  match f with
  | .SimpleTextFilter s => strContainsCI t.text s
  | .FutureFilter =>
      match t.dueDate with
      | none => true
      | some d => d ≤ today
  | .IncompleteTasksFilter => !t.is_complete
  | .CompleteTasksFilter => t.is_complete

/-- Modelled from the spec: tasklib.filterTasks — empty or absent filter
list returns the tasks unchanged, otherwise keeps, in order, exactly the
tasks matching every filter (logical AND). -/
def filterTasks (today : Nat) (filters : Option (List TaskFilter))
    (tasks : List TodoTask) : List TodoTask :=
  match filters with
  | none => tasks
  | some [] => tasks
  | some fs => tasks.filter (fun t => fs.all (fun f => f.isMatch today t))

/-- Python truthiness of the `filters` argument: `not filters` is true for
None and for the empty list. -/
def filtersFalsy : Option (List TaskFilter) → Bool
  | none => true
  | some [] => true
  | some (_ :: _) => false

/-- The membership test `CompleteTasksFilter() in filters` (only evaluated
when `filters` is truthy). -/
def containsComplete : Option (List TaskFilter) → Bool
  | none => false
  | some fs => decide (TaskFilter.CompleteTasksFilter ∈ fs)

/-- Embedding of MainController._applyFilters (main_controller.py lines
160-175) as a pure function of the controller fields it reads: the tree
filter pass, then the search pass when the search text is non-empty, then
the future pass when showFuture is off, then the incomplete pass when
showCompleted is off and the filter set is falsy or lacks
CompleteTasksFilter. -/
def applyFilters (today : Nat) (filters : Option (List TaskFilter))
    (searchText : String) (showFuture showCompleted : Bool)
    (tasks : List TodoTask) : List TodoTask :=
  let t1 := filterTasks today filters tasks
  let t2 := if searchText ≠ "" then
      filterTasks today (some [TaskFilter.SimpleTextFilter searchText]) t1
    else t1
  let t3 := if !showFuture then
      filterTasks today (some [TaskFilter.FutureFilter]) t2
    else t2
  if !showCompleted && (filtersFalsy filters || !containsComplete filters) then
    filterTasks today (some [TaskFilter.IncompleteTasksFilter]) t3
  else t3

/-- Pass 1 of the spec's composition rule: the structural/tree-selected
filter set. -/
def treePass (today : Nat) (filters : Option (List TaskFilter))
    (tasks : List TodoTask) : List TodoTask :=
  filterTasks today filters tasks

/-- Pass 2 of the spec's composition rule: a text-search filter if a search
string is active. -/
def searchPass (today : Nat) (searchText : String) (tasks : List TodoTask) :
    List TodoTask :=
  if searchText ≠ "" then
    filterTasks today (some [TaskFilter.SimpleTextFilter searchText]) tasks
  else tasks

/-- Pass 3 of the spec's composition rule: a future-due exclusion filter if
future tasks are hidden. -/
def futurePass (today : Nat) (showFuture : Bool) (tasks : List TodoTask) :
    List TodoTask :=
  if !showFuture then
    filterTasks today (some [TaskFilter.FutureFilter]) tasks
  else tasks

/-- Pass 4 of the spec's composition rule: an incomplete-only filter if
completed tasks are hidden and the active filter set does not itself
contain a CompleteTasksFilter. -/
def completedPass (today : Nat) (showCompleted : Bool)
    (filters : Option (List TaskFilter)) (tasks : List TodoTask) : List TodoTask :=
  if !showCompleted && !containsComplete filters then
    filterTasks today (some [TaskFilter.IncompleteTasksFilter]) tasks
  else tasks

/-- The Qt signals the controller emits, as observable events. `fileChanged`
models FileObserver.fileChangetSig for a write to the given path. -/
inductive Event where
  | modifiedChanged (value : Bool)
  | taskListChanged
  | errorMsg (msg : String)
  | fileChanged (path : String)
deriving DecidableEq

/-- The MainController state that the checked methods read and write.
`fsys` models the readable file system (path to lines, none when
unreadable); `fileTasks` is self._file.tasks, `tasksList` is
self._tasksList (the visible list), `watchPaths` is the FileObserver's
watch set, `doneSink` is the done-file's appended lines, `diskContent` is
the main file's last written content and `nextId` supplies fresh task
identities. -/
structure ControllerState where
  fsys : String → Option (List String)
  fileTasks : List TodoTask
  fileName : Option String
  tasksList : List TodoTask
  modified : Bool
  showCompleted : Bool
  showFuture : Bool
  searchText : String
  watchPaths : List String
  lastOpenFile : Option String
  autoSave : Bool
  doneSink : List String
  diskContent : Option (List String)
  nextId : Nat

/-- Modelled from the spec: Task Codec parseLine (qtodotxt.lib.tasklib).
Only the completion flag is derived from the line here; no checked claim
relates any other derived field to the line text.  A freshly parsed task
has no signal connections. -/
def parseTask (id : Nat) (line : String) : TodoTask :=
  { id := id, text := line, is_complete := isPrefixCh "x ".toList line.toList,
    dueDate := none, connections := 0 }

/-- Modelled from the spec: task serialization for the done sink; the raw
line text is the canonical serialized form. -/
def serialize (t : TodoTask) : String :=
  t.text

/-- One execution of `task.modified.connect(self._taskModified)`: one more
connection of the per-task signal to the session handler. -/
def connectTask (t : TodoTask) : TodoTask :=
  { t with connections := t.connections + 1 }

/-- Modelled from the spec: File.load (qtodotxt.lib.file) — fails when the
path cannot be read (FileUnavailable), otherwise yields one parsed task per
line; on failure nothing is mutated. -/
def loadFile (fsys : String → Option (List String)) (startId : Nat)
    (filename : String) : Option (List TodoTask) :=
  match fsys filename with
  | none => none
  | some lines => some (lines.enum.map (fun p => parseTask (startId + p.1) p.2))

/-- Insertion at a position, appending when the position is past the end
(as Python's list.insert does). -/
def insertAt : Nat → α → List α → List α
  | 0, x, l => x :: l
  | _ + 1, x, [] => [x]
  | n + 1, x, h :: t => h :: insertAt n x t

/-- Python list.insert index semantics: a negative index counts from the
end (clamped at the front), an index past the end appends. -/
def pyInsert (l : List α) (i : Int) (x : α) : List α :=
  if i < 0 then insertAt ((l.length : Int) + i).toNat x l
  else insertAt i.toNat x l

/-- The task object `tasklib.Task(text)` built by newTask, already wired to
the session handler by `task.modified.connect`. -/
def newTaskObj (st : ControllerState) (text : String) : TodoTask :=
  connectTask (parseTask st.nextId text)

/-- Embedding of MainController.newTask (main_controller.py lines 51-61):
create and wire the task, default `after` to len(tasksList) - 1, append to
the file's tasks, insert into the visible list at after + 1, set modified,
emit taskListChanged and return after + 1. -/
def newTask (st : ControllerState) (text : String) (after : Option Int) :
    ControllerState × List Event × Int :=
  let task := newTaskObj st text
  let a : Int :=
    match after with
    | none => (st.tasksList.length : Int) - 1
    | some x => x
  ({ st with
      fileTasks := st.fileTasks ++ [task],
      tasksList := pyInsert st.tasksList (a + 1) task,
      modified := true,
      nextId := st.nextId + 1 },
   [Event.modifiedChanged true, Event.taskListChanged], a + 1)

/-- Modelled from the spec: Task List removal — by identity (`id`), first
occurrence, silent no-op when absent (the task container of
qtodotxt.lib.file is not under the checked sources). -/
def listRemoveById : List TodoTask → TodoTask → List TodoTask
  | [], _ => []
  | h :: t, x => if h.id = x.id then t else h :: listRemoveById t x

/-- Embedding of MainController.deleteTask (main_controller.py lines
63-70) on a task argument: remove from the file's tasks, set modified,
then re-apply the filters (with the default `filters=None`) to refresh the
visible list. -/
def deleteTask (today : Nat) (st : ControllerState) (task : TodoTask) :
    ControllerState × List Event :=
  let fileTasks := listRemoveById st.fileTasks task
  ({ st with
      fileTasks := fileTasks,
      modified := true,
      tasksList := applyFilters today none st.searchText st.showFuture
        st.showCompleted fileTasks },
   [Event.modifiedChanged true, Event.taskListChanged])

/-- Embedding of MainController.save (main_controller.py lines 201-215):
clear the file observer, then (with a bound filename) write the file,
record the last-open-file setting, execute the source's `self.modified =
True`, and re-add the path to the observer.  The no-filename branch goes
through a file dialog; it is modelled as a cancelled dialog (no write).
Modelled from the spec: the watcher reacts to a write exactly when the
written path is in its watch set at write time. -/
def save (st : ControllerState) : ControllerState × List Event :=
  let st1 := { st with watchPaths := [] }
  match st1.fileName with
  | none => (st1, [])
  | some fn =>
      let writeEvents :=
        if st1.watchPaths.contains fn then [Event.fileChanged fn] else []
      ({ st1 with
          diskContent := some (st1.fileTasks.map serialize),
          lastOpenFile := some fn,
          modified := true,
          watchPaths := [fn] },
       writeEvents ++ [Event.modifiedChanged true])

/-- Embedding of MainController._onFileUpdated (main_controller.py lines
184-187): refresh the filter tree (outside this state), set modified and
auto-save when the auto_save setting is on. -/
def onFileUpdated (st : ControllerState) : ControllerState × List Event :=
  let st1 := { st with modified := true }
  if st1.autoSave then
    let r := save st1
    (r.1, Event.modifiedChanged true :: r.2)
  else
    (st1, [Event.modifiedChanged true])

/-- The loop of _archive_all_done_tasks: for each collected done task,
append its serialized line to the done sink, then remove it from the
file's tasks. -/
def archiveLoop (done : List TodoTask) (tasks : List TodoTask)
    (sink : List String) : List TodoTask × List String :=
  match done with
  | [] => (tasks, sink)
  | t :: rest => archiveLoop rest (listRemoveById tasks t) (sink ++ [serialize t])

/-- Embedding of MainController._archive_all_done_tasks (main_controller.py
lines 177-182): collect the complete tasks, save each to the done sink and
remove it, then run _onFileUpdated. -/
def archiveAllDone (st : ControllerState) : ControllerState × List Event :=
  let done := st.fileTasks.filter (fun t => t.is_complete)
  let r := archiveLoop done st.fileTasks st.doneSink
  onFileUpdated { st with fileTasks := r.1, doneSink := r.2 }

/-- Embedding of MainController.open (main_controller.py lines 245-262):
clear the file observer, try to load; on failure emit the user-visible
error message and return; on success take over the loaded tasks and
filename, run _loadFileToUI (modified := false), record the setting,
re-add the watch path and connect every loaded task's modified signal. -/
def openFile (st : ControllerState) (filename : String) :
    ControllerState × List Event :=
  let st1 := { st with watchPaths := [] }
  match loadFile st1.fsys st1.nextId filename with
  | none =>
      let msg :=
        if st1.lastOpenFile = some filename then
          "Current file is not available: " ++ filename
        else
          "Error opening file: " ++ filename
      (st1, [Event.errorMsg msg])
  | some tasks =>
      ({ st1 with
          fileTasks := tasks.map connectTask,
          fileName := some filename,
          modified := false,
          lastOpenFile := some filename,
          watchPaths := [filename],
          nextId := st1.nextId + tasks.length },
       [Event.modifiedChanged false])

/-- A task belonging to the input and matching every filter of the set
belongs to the output of `filterTasks` on that set. -/
theorem mem_filterTasks_some (today : Nat) (fs : List TaskFilter)
    (tasks : List TodoTask) (t : TodoTask) (ht : t ∈ tasks)
    (h : ∀ f ∈ fs, f.isMatch today t = true) :
    t ∈ filterTasks today (some fs) tasks := by
  cases fs with
  | nil => simpa [filterTasks] using ht
  | cons f rest =>
      show t ∈ List.filter _ tasks
      refine List.mem_filter.mpr ⟨ht, ?_⟩
      simp only [List.all_eq_true]
      intro g hg
      exact h g hg

/-- `_applyFilters` is the in-order composition of the four passes of the
specification's composition rule. -/
theorem applyFilters_eq_passes (today : Nat)
    (filters : Option (List TaskFilter)) (s : String) (sf sc : Bool)
    (tasks : List TodoTask) :
    applyFilters today filters s sf sc tasks =
      completedPass today sc filters
        (futurePass today sf (searchPass today s (treePass today filters tasks))) := by
  unfold applyFilters completedPass futurePass searchPass treePass
  cases filters with
  | none => simp [filtersFalsy, containsComplete]
  | some fs =>
      cases fs with
      | nil => simp [filtersFalsy, containsComplete]
      | cons f rest => simp [filtersFalsy]

/-- C2: for every task list, the caller-facing filter application composes
exactly four passes in this order — (1) the tree-selected filter set, (2)
a text-search filter only when the search string is non-empty, (3) a
future-due exclusion filter only when showFuture is false, (4) an
incomplete-only filter only when showCompleted is false and the active
filter set does not contain a CompleteTasksFilter — the result of each
pass being the input of the next. -/
theorem c2_four_pass_composition (today : Nat)
    (filters : Option (List TaskFilter)) (s : String) (sf sc : Bool)
    (tasks : List TodoTask) :
    applyFilters today filters s sf sc tasks =
      completedPass today sc filters
        (futurePass today sf (searchPass today s (treePass today filters tasks))) :=
  applyFilters_eq_passes today filters s sf sc tasks

/-- C1: with showCompleted = false and an active filter set containing an
explicit CompleteTasksFilter, the incomplete-only pass is skipped — the
result equals the showCompleted = true result — and every completed task
matching that filter set (and the active search and future passes) is
included in the result. -/
theorem c1_complete_precedence (today : Nat) (fs : List TaskFilter)
    (s : String) (sf : Bool) (tasks : List TodoTask)
    (hmem : TaskFilter.CompleteTasksFilter ∈ fs) :
    applyFilters today (some fs) s sf false tasks =
      applyFilters today (some fs) s sf true tasks ∧
    ∀ t ∈ tasks, (∀ f ∈ fs, f.isMatch today t = true) →
      (s = "" ∨ strContainsCI t.text s = true) →
      (sf = true ∨ TaskFilter.FutureFilter.isMatch today t = true) →
      t ∈ applyFilters today (some fs) s sf false tasks := by
  have hcc : containsComplete (some fs) = true := by
    simp only [containsComplete, decide_eq_true_eq]
    exact hmem
  constructor
  · rw [applyFilters_eq_passes, applyFilters_eq_passes]
    unfold completedPass
    simp [hcc]
  · intro t ht hall hs hf
    rw [applyFilters_eq_passes]
    have h1 : t ∈ treePass today (some fs) tasks :=
      mem_filterTasks_some today fs tasks t ht hall
    have h2 : t ∈ searchPass today s (treePass today (some fs) tasks) := by
      unfold searchPass
      by_cases hs0 : s = ""
      · simpa [hs0] using h1
      · rw [if_pos hs0]
        refine mem_filterTasks_some today _ _ t h1 ?_
        intro g hg
        rcases List.mem_singleton.mp hg with rfl
        simpa [TaskFilter.isMatch] using hs.resolve_left hs0
    have h3 : t ∈ futurePass today sf
        (searchPass today s (treePass today (some fs) tasks)) := by
      unfold futurePass
      cases sf with
      | true => simpa using h2
      | false =>
          rw [if_pos (show (!false) = true from rfl)]
          refine mem_filterTasks_some today _ _ t h2 ?_
          intro g hg
          rcases List.mem_singleton.mp hg with rfl
          exact hf.resolve_left (by simp)
    unfold completedPass
    simpa [hcc] using h3

/-- A completed concrete task used by the witnesses. -/
def tDone : TodoTask :=
  { id := 0, text := "x 2023-02-01 pay bill", is_complete := true,
    dueDate := none, connections := 1 }

theorem c1_complete_precedence_witness :
    TaskFilter.CompleteTasksFilter ∈ [TaskFilter.CompleteTasksFilter] ∧
    tDone ∈ applyFilters 0 (some [TaskFilter.CompleteTasksFilter]) "" true false
      [tDone] :=
  ⟨by decide,
   (c1_complete_precedence 0 [TaskFilter.CompleteTasksFilter] "" true [tDone]
      (by decide)).2 tDone (by decide) (by decide) (Or.inl rfl) (Or.inl rfl)⟩

/-- A fresh controller session (the state right after __init__). -/
def baseState : ControllerState :=
  { fsys := fun _ => none, fileTasks := [], fileName := none, tasksList := [],
    modified := false, showCompleted := true, showFuture := true,
    searchText := "", watchPaths := [], lastOpenFile := none, autoSave := false,
    doneSink := [], diskContent := none, nextId := 0 }

/-- A concrete session bound to "todo.txt" with one task and an armed
watch. -/
def stSave : ControllerState :=
  { baseState with
    fileTasks := [tDone], fileName := some "todo.txt",
    tasksList := [tDone], modified := true, watchPaths := ["todo.txt"],
    lastOpenFile := some "todo.txt", nextId := 1 }

/-- C3 (code-bug evidence): after this successful save the disk content
equals the serialized in-memory task list — there is no divergence — yet
the source's `self.modified = True` leaves the modified flag true, where
the claim (and the flag's specified meaning) requires false. -/
theorem c3_save_sets_modified_true :
    (save stSave).1.diskContent = some (stSave.fileTasks.map serialize) ∧
    (save stSave).1.modified = true := by
  constructor <;> rfl

/-- Removing a task whose identity is absent from the list is a no-op. -/
theorem listRemoveById_of_not_mem (l : List TodoTask) (x : TodoTask)
    (h : x.id ∉ l.map (fun t => t.id)) : listRemoveById l x = l := by
  induction l with
  | nil => rfl
  | cons a t ih =>
      simp only [List.map_cons, List.mem_cons, not_or] at h
      unfold listRemoveById
      rw [if_neg (fun he => h.1 he.symm), ih h.2]

/-- C4: deleting a task that is not in the list is a silent no-op — the
file's task list is unchanged and no error event is emitted (only the
usual modified and list-changed notifications occur). -/
theorem c4_delete_absent_noop (today : Nat) (st : ControllerState)
    (task : TodoTask) (h : task.id ∉ st.fileTasks.map (fun t => t.id)) :
    (deleteTask today st task).1.fileTasks = st.fileTasks ∧
    (deleteTask today st task).2 =
      [Event.modifiedChanged true, Event.taskListChanged] := by
  unfold deleteTask
  rw [listRemoveById_of_not_mem st.fileTasks task h]
  exact ⟨rfl, rfl⟩

/-- A task that is not in stSave's list. -/
def tOther : TodoTask :=
  { id := 99, text := "elsewhere", is_complete := false, dueDate := none,
    connections := 1 }

theorem c4_delete_absent_noop_witness :
    tOther.id ∉ stSave.fileTasks.map (fun t => t.id) ∧
    (deleteTask 0 stSave tOther).1.fileTasks = stSave.fileTasks ∧
    (deleteTask 0 stSave tOther).2 =
      [Event.modifiedChanged true, Event.taskListChanged] :=
  ⟨by decide,
   (c4_delete_absent_noop 0 stSave tOther (by decide)).1,
   (c4_delete_absent_noop 0 stSave tOther (by decide)).2⟩

/-- C5 counterexample: opening an unreadable path on the session stSave
leaves the task list untouched but clears the file observer's watch set —
the core state is not left fully unchanged. -/
theorem c5_open_failure_counterexample :
    (openFile stSave "missing.txt").1.watchPaths ≠ stSave.watchPaths ∧
    (openFile stSave "missing.txt").1.tasksList = stSave.tasksList := by
  constructor <;> decide

/-- C5 (amended): opening an unreadable path surfaces a user-visible error
message and leaves the task list, file binding, modified flag and all
remaining session state unchanged — except that the file observer's watch
set has already been cleared and is not re-armed on failure. -/
theorem c5_open_failure_atomic (st : ControllerState) (filename : String)
    (h : st.fsys filename = none) :
    (openFile st filename).1 = { st with watchPaths := [] } ∧
    ∃ m, (openFile st filename).2 = [Event.errorMsg m] := by
  obtain ⟨fy, ft, fnm, tl, md, sc, sfu, stx, wp, lof, asv, ds, dc, ni⟩ := st
  simp only at h
  unfold openFile loadFile
  simp only
  rw [h]
  exact ⟨rfl, _, rfl⟩

theorem c5_open_failure_atomic_witness :
    stSave.fsys "missing.txt" = none ∧
    (openFile stSave "missing.txt").1 = { stSave with watchPaths := [] } ∧
    ∃ m, (openFile stSave "missing.txt").2 = [Event.errorMsg m] :=
  ⟨rfl,
   (c5_open_failure_atomic stSave "missing.txt" rfl).1,
   (c5_open_failure_atomic stSave "missing.txt" rfl).2⟩

/-- C7: a self-initiated save produces no external-change notification for
its own write — the watch is cleared before the write, so no file-changed
event is emitted, and the path is re-armed only afterwards. -/
theorem c7_save_no_self_notification (st : ControllerState) (fn : String)
    (h : st.fileName = some fn) :
    (save st).1.watchPaths = [fn] ∧
    ∀ p, Event.fileChanged p ∉ (save st).2 := by
  obtain ⟨fy, ft, fnm, tl, md, sc, sfu, stx, wp, lof, asv, ds, dc, ni⟩ := st
  simp only at h
  subst h
  refine ⟨rfl, ?_⟩
  intro p
  simp [save]

theorem c7_save_no_self_notification_witness :
    stSave.fileName = some "todo.txt" ∧
    (save stSave).1.watchPaths = ["todo.txt"] ∧
    Event.fileChanged "todo.txt" ∉ (save stSave).2 :=
  ⟨rfl,
   (c7_save_no_self_notification stSave "todo.txt" rfl).1,
   (c7_save_no_self_notification stSave "todo.txt" rfl).2 "todo.txt"⟩

/-- Removing the head of a list by its own identity yields the tail. -/
theorem listRemoveById_cons_self (h : TodoTask) (l : List TodoTask)
    (x : TodoTask) (hid : h.id = x.id) : listRemoveById (h :: l) x = l := by
  simp only [listRemoveById, if_pos hid]

/-- Removal by a different identity skips the head. -/
theorem listRemoveById_cons_ne (h : TodoTask) (l : List TodoTask)
    (x : TodoTask) (hne : h.id ≠ x.id) :
    listRemoveById (h :: l) x = h :: listRemoveById l x := by
  simp only [listRemoveById, if_neg hne]

/-- The archive loop never touches a head task whose identity differs from
every collected done task. -/
theorem archiveLoop_cons_skip (done : List TodoTask) (h : TodoTask)
    (tasks : List TodoTask) (sink : List String)
    (hd : ∀ t ∈ done, t.id ≠ h.id) :
    archiveLoop done (h :: tasks) sink =
      ((archiveLoop done tasks sink).1.cons h,
       (archiveLoop done tasks sink).2) := by
  induction done generalizing tasks sink with
  | nil => rfl
  | cons d rest ih =>
      unfold archiveLoop
      rw [listRemoveById_cons_ne h tasks d
        (fun he => hd d (List.mem_cons_self d rest) he.symm)]
      exact ih (listRemoveById tasks d) (sink ++ [serialize d])
        (fun t ht => hd t (List.mem_cons_of_mem d ht))

/-- With pairwise distinct identities, the archive loop removes exactly
the complete tasks and appends exactly their serialized lines, in order,
to the sink. -/
theorem archiveLoop_filter (tasks : List TodoTask) (sink : List String)
    (hnd : (tasks.map (fun t => t.id)).Nodup) :
    archiveLoop (tasks.filter (fun t => t.is_complete)) tasks sink =
      (tasks.filter (fun t => !t.is_complete),
       sink ++ (tasks.filter (fun t => t.is_complete)).map serialize) := by
  induction tasks generalizing sink with
  | nil => simp [archiveLoop]
  | cons h t ih =>
      rw [List.map_cons, List.nodup_cons] at hnd
      obtain ⟨hnotin, hnd2⟩ := hnd
      by_cases hc : h.is_complete
      · rw [List.filter_cons_of_pos (by simpa using hc)]
        unfold archiveLoop
        rw [listRemoveById_cons_self h t h rfl, ih (sink ++ [serialize h]) hnd2]
        simp [hc]
      · rw [List.filter_cons_of_neg (by simpa using hc)]
        rw [archiveLoop_cons_skip (t.filter (fun u => u.is_complete)) h t sink
          (fun u hu heq => hnotin (heq ▸ List.mem_map_of_mem (fun v => v.id)
            (List.mem_of_mem_filter hu)))]
        rw [ih sink hnd2]
        simp [hc]

/-- _onFileUpdated (with its auto-save) changes neither the file's task
list nor the done sink. -/
theorem onFileUpdated_preserves (st : ControllerState) :
    (onFileUpdated st).1.fileTasks = st.fileTasks ∧
    (onFileUpdated st).1.doneSink = st.doneSink := by
  obtain ⟨fy, ft, fnm, tl, md, sc, sfu, stx, wp, lof, asv, ds, dc, ni⟩ := st
  unfold onFileUpdated save
  cases asv <;> cases fnm <;> simp

/-- C6: archiving removes from the list exactly the tasks whose
is_complete is true, hands each of them (serialized, in first-seen order)
to the done sink exactly once, and keeps every incomplete task. -/
theorem c6_archive_completed (st : ControllerState)
    (hnd : (st.fileTasks.map (fun t => t.id)).Nodup) :
    (archiveAllDone st).1.fileTasks =
      st.fileTasks.filter (fun t => !t.is_complete) ∧
    (archiveAllDone st).1.doneSink =
      st.doneSink ++ (st.fileTasks.filter (fun t => t.is_complete)).map serialize := by
  simp only [archiveAllDone]
  rw [archiveLoop_filter st.fileTasks st.doneSink hnd]
  exact ⟨(onFileUpdated_preserves _).1, (onFileUpdated_preserves _).2⟩

/-- Two concrete incomplete tasks for the archive witness. -/
def tInc1 : TodoTask :=
  { id := 1, text := "buy milk", is_complete := false, dueDate := none,
    connections := 1 }

def tInc2 : TodoTask :=
  { id := 2, text := "write report", is_complete := false, dueDate := none,
    connections := 1 }

/-- A session of three tasks of which exactly one is complete. -/
def stArch : ControllerState :=
  { baseState with
    fileTasks := [tInc1, tDone, tInc2], nextId := 3 }

theorem c6_archive_completed_witness :
    (stArch.fileTasks.map (fun t => t.id)).Nodup ∧
    ((archiveAllDone stArch).1.fileTasks =
        stArch.fileTasks.filter (fun t => !t.is_complete) ∧
      (archiveAllDone stArch).1.doneSink =
        stArch.doneSink ++
          (stArch.fileTasks.filter (fun t => t.is_complete)).map serialize) ∧
    (archiveAllDone stArch).1.fileTasks.length = 2 ∧
    (archiveAllDone stArch).1.doneSink.length = 1 :=
  ⟨by decide, c6_archive_completed stArch (by decide), by decide, by decide⟩

/-- C8 (amended): every structural mutation — newTask, deleteTask and
archiving — sets the session's modified flag to true; deleteTask
re-derives the filtered visible view through the filter engine (with the
default empty tree selection), while newTask emits a list-changed
notification but inserts the new task directly into the visible list, and
archiving refreshes the filter tree without re-deriving the visible
list. -/
theorem c8_mutations_modified :
    (∀ st text after,
        (newTask st text after).1.modified = true ∧
        Event.taskListChanged ∈ (newTask st text after).2.1) ∧
    (∀ today st task,
        (deleteTask today st task).1.modified = true ∧
        (deleteTask today st task).1.tasksList =
          applyFilters today none st.searchText st.showFuture st.showCompleted
            (listRemoveById st.fileTasks task)) ∧
    (∀ st, (archiveAllDone st).1.modified = true) := by
  refine ⟨fun st text after => ⟨rfl, ?_⟩, fun today st task => ⟨rfl, rfl⟩, fun st => ?_⟩
  · simp [newTask]
  · obtain ⟨fy, ft, fnm, tl, md, sc, sfu, stx, wp, lof, asv, ds, dc, ni⟩ := st
    simp only [archiveAllDone, onFileUpdated, save]
    cases asv <;> cases fnm <;> simp

/-- A session with an active text search and no tasks. -/
def stSearch : ControllerState :=
  { baseState with searchText := "x" }

/-- C8 counterexample: with an active search "x", newTask inserts the new
empty-text task straight into the visible list; the visible list then
differs from the filter engine's re-derivation of the view, so the claimed
re-derivation does not take place. -/
theorem c8_counterexample :
    (newTask stSearch "" none).1.modified = true ∧
    (newTask stSearch "" none).1.tasksList ≠
      applyFilters 0 none stSearch.searchText stSearch.showFuture
        stSearch.showCompleted (newTask stSearch "" none).1.fileTasks := by
  constructor
  · rfl
  · decide

/-- C9: every task in the session has its per-task modified signal
connected to the session handler exactly once — every task loaded by a
successful open is connected exactly once, and newTask creates its task
already connected once, preserving the property for the whole list. -/
theorem c9_connected_once :
    (∀ st filename, st.fsys filename ≠ none →
        ∀ t ∈ (openFile st filename).1.fileTasks, t.connections = 1) ∧
    (∀ st text after, (∀ t ∈ st.fileTasks, t.connections = 1) →
        ∀ t ∈ (newTask st text after).1.fileTasks, t.connections = 1) := by
  constructor
  · intro st filename h t ht
    obtain ⟨fy, ft, fnm, tl, md, sc, sfu, stx, wp, lof, asv, ds, dc, ni⟩ := st
    simp only at h
    simp only [openFile, loadFile] at ht
    cases hfs : fy filename with
    | none => exact absurd hfs h
    | some lines =>
        rw [hfs] at ht
        simp only [List.mem_map] at ht
        obtain ⟨u, ⟨p, hp, hpu⟩, rfl⟩ := ht
        rw [← hpu]
        rfl
  · intro st text after h t ht
    simp only [newTask] at ht
    rcases List.mem_append.mp ht with hold | hnew
    · exact h t hold
    · rw [List.mem_singleton.mp hnew]
      rfl

/-- A session whose file system serves exactly one readable file. -/
def stOpen : ControllerState :=
  { baseState with
    fsys := fun p => if p = "todo.txt" then some ["alpha task", "x done task"]
      else none }

theorem c9_connected_once_witness :
    stOpen.fsys "todo.txt" ≠ none ∧
    (connectTask (parseTask 0 "alpha task")).connections = 1 ∧
    (newTaskObj baseState "fresh").connections = 1 :=
  ⟨by decide,
   c9_connected_once.1 stOpen "todo.txt" (by decide)
     (connectTask (parseTask 0 "alpha task")) (by decide),
   c9_connected_once.2 baseState "fresh" none (by decide)
     (newTaskObj baseState "fresh") (by decide)⟩

/-- For an index within bounds, `insertAt` puts the element exactly at
that position. -/
theorem insertAt_eq_take_cons_drop {α : Type _} (n : Nat) (x : α)
    (l : List α) (h : n ≤ l.length) :
    insertAt n x l = l.take n ++ x :: l.drop n := by
  induction n generalizing l with
  | zero => simp [insertAt]
  | succ m ih =>
      cases l with
      | nil => simp at h
      | cons a t =>
          simp only [insertAt, List.take_succ_cons, List.drop_succ_cons,
            List.cons_append]
          rw [ih t (by simpa using h)]

/-- C10 (amended): with after = None, newTask returns the visible length n
and appends the new task at the end of both the visible list and the
file's task sequence; with an integer after in the range
-1 ≤ after ≤ n - 1 it returns after + 1, inserts the new task at position
after + 1 of the visible list and appends it to the file's task sequence.
(Out-of-range positions are clamped by Python's list.insert, so the claim
is false for arbitrary integers.) -/
theorem c10_newTask_position :
    (∀ st text,
        (newTask st text none).2.2 = (st.tasksList.length : Int) ∧
        (newTask st text none).1.tasksList =
          st.tasksList ++ [newTaskObj st text] ∧
        (newTask st text none).1.fileTasks =
          st.fileTasks ++ [newTaskObj st text]) ∧
    (∀ st text (a : Int), -1 ≤ a → a ≤ (st.tasksList.length : Int) - 1 →
        (newTask st text (some a)).2.2 = a + 1 ∧
        (newTask st text (some a)).1.tasksList =
          st.tasksList.take (a + 1).toNat ++
            newTaskObj st text :: st.tasksList.drop (a + 1).toNat ∧
        (newTask st text (some a)).1.fileTasks =
          st.fileTasks ++ [newTaskObj st text]) := by
  constructor
  · intro st text
    refine ⟨?_, ?_, rfl⟩
    · show (st.tasksList.length : Int) - 1 + 1 = (st.tasksList.length : Int)
      omega
    · show pyInsert st.tasksList ((st.tasksList.length : Int) - 1 + 1)
        (newTaskObj st text) = st.tasksList ++ [newTaskObj st text]
      unfold pyInsert
      rw [if_neg (by omega)]
      rw [show ((st.tasksList.length : Int) - 1 + 1).toNat =
        st.tasksList.length by omega]
      rw [insertAt_eq_take_cons_drop _ _ _ le_rfl]
      simp
  · intro st text a h0 h1
    refine ⟨rfl, ?_, rfl⟩
    show pyInsert st.tasksList (a + 1) (newTaskObj st text) = _
    unfold pyInsert
    rw [if_neg (by omega)]
    exact insertAt_eq_take_cons_drop _ _ _ (by omega)

theorem c10_newTask_position_witness :
    ((-1 : Int) ≤ 0 ∧ (0 : Int) ≤ (stSave.tasksList.length : Int) - 1) ∧
    ((newTask stSave "call home" (some 0)).2.2 = 0 + 1 ∧
      (newTask stSave "call home" (some 0)).1.tasksList =
        stSave.tasksList.take ((0 : Int) + 1).toNat ++
          newTaskObj stSave "call home" ::
            stSave.tasksList.drop ((0 : Int) + 1).toNat ∧
      (newTask stSave "call home" (some 0)).1.fileTasks =
        stSave.fileTasks ++ [newTaskObj stSave "call home"]) :=
  ⟨⟨by decide, by decide⟩,
   c10_newTask_position.2 stSave "call home" 0 (by decide) (by decide)⟩

/-- C10 counterexample: on an empty visible list, newTask with after = 5
returns 6, but the new task lands at position 0 — the list has length 1,
so there is no position 6; Python's list.insert clamps the index. -/
theorem c10_newTask_position_counterexample :
    (newTask baseState "t" (some 5)).2.2 = 6 ∧
    (newTask baseState "t" (some 5)).1.tasksList.length = 1 ∧
    (newTask baseState "t" (some 5)).1.tasksList.get? 6 = none := by
  refine ⟨by decide, by decide, by decide⟩
